import Mathlib

/-!
Verification of the client-side state-synchronization layer of the
ephemeral chat room (edge-chat): the reconciling message cache
(optimistic send with snapshot rollback, realtime merge with id
deduplication) and the lifecycle countdown timer.

The definitions below are a shallow embedding of the room page component
(`src/unnamed/part_000`) and the composer (`src/components/chat-input.tsx`).
The react-query cache entry for `["messages", roomId]` is modelled as
`Option (List Message)` (`none` = no data yet, `some msgs` = the cached
`{ messages }` object).
-/

namespace EdgeChat

/-- A chat message, mirroring the `Message` wire shape used by the page:
`{ id, sender, text, timestamp, roomId, imageBase64?, imageType? }`. -/
structure Message where
  id : String
  sender : String
  text : String
  timestamp : Int
  roomId : String
  imageBase64 : Option String
  imageType : Option String
deriving DecidableEq, Repr

/-- The draft handed to the `sendMessage` mutation:
`{ text, imageBase64?, imageType?, id }` (the id is client-generated). -/
structure Draft where
  text : String
  imageBase64 : Option String
  imageType : Option String
  id : String
deriving DecidableEq, Repr

/-- The optimistic `Message` synthesized inside `onMutate` (part_000 lines
119-127): client-generated id, current `username`, draft text, `Date.now()`
as timestamp, the current `roomId`, and the draft's image fields. -/
def synthesizeOptimistic (d : Draft) (username : String) (now : Int)
    (roomId : String) : Message :=
  { id := d.id
    sender := username
    text := d.text
    timestamp := now
    roomId := roomId
    imageBase64 := d.imageBase64
    imageType := d.imageType }

/-- The `setQueryData` updater of `onMutate` (part_000 lines 116-134):
if the cache held no data, the new list is the singleton of the optimistic
message; otherwise the optimistic message is appended at the tail. -/
def optMutate (old : Option (List Message)) (m : Message) : List Message :=
  match old with
  | none => [m]
  | some msgs => msgs ++ [m]

/-- The `setQueryData` updater of the realtime `chat.message` handler
(part_000 lines 162-172): with no cached data the pushed message becomes a
singleton list; if some cached entry already has the pushed id the cache is
returned unchanged; otherwise the pushed message is appended at the tail. -/
def mergeRealtime (old : Option (List Message)) (data : Message) :
    List Message :=
  match old with
  | none => [data]
  | some msgs =>
    if msgs.any (fun m => m.id == data.id) then msgs
    else msgs ++ [data]

/-- The `onError` rollback (part_000 lines 139-144): when the snapshot
`context.previousMessages` is present (truthy), the cache is overwritten
with that snapshot verbatim; otherwise the cache is left as it is. -/
def onErrorRollback (cache : Option (List Message))
    (previousMessages : Option (List Message)) : Option (List Message) :=
  match previousMessages with
  | some prev => some prev
  | none => cache

/-- One full run of the `sendMessage` mutation lifecycle against the cache
(part_000 lines 96-149): `onMutate` snapshots the current cache and applies
the optimistic append; while the POST is in flight an arbitrary cache
mutation `interleave` may run (e.g. a realtime merge); if the POST fails,
`onError` restores the snapshot. A successful run keeps the in-flight
state (the authoritative refetch triggered by `onSuccess` lands later). -/
def runSendMutation (cache : Option (List Message)) (m : Message)
    (interleave : Option (List Message) → Option (List Message))
    (fails : Bool) : Option (List Message) :=
  let previousMessages := cache
  let afterOpt : Option (List Message) := some (optMutate cache m)
  let beforeSettle := interleave afterOpt
  if fails then onErrorRollback beforeSettle previousMessages
  else beforeSettle

/-- State of the countdown machinery of the room view: the
`timeRemaining` React state (part_000 line 38, `null` before the TTL
arrives), the list of routes pushed so far via `router.push`, and whether
a `setInterval` tick source is currently armed by the countdown effect. -/
structure TimerState where
  timeRemaining : Option Int
  pushedRoutes : List String
  intervalArmed : Bool
deriving DecidableEq, Repr

/-- The interval callback's update of `timeRemaining` (part_000 lines
67-73): values at most 1 (and null) collapse to 0, clearing the interval;
otherwise the value decrements by one. -/
def tickValue (tr : Int) : Int :=
  if tr ≤ 1 then 0 else tr - 1

/-- The countdown effect body (part_000 lines 58-77), run whenever
`timeRemaining` changes: null or negative values arm nothing; zero pushes
the teardown route and arms nothing (so the push cannot re-fire without a
further state change); positive values arm the one-second interval. The
effect cleanup clears any previously armed interval, so `intervalArmed`
reflects only this run. -/
def runEffect (s : TimerState) : TimerState :=
  match s.timeRemaining with
  | none => { s with intervalArmed := false }
  | some tr =>
    if tr < 0 then { s with intervalArmed := false }
    else if tr = 0 then
      { s with pushedRoutes := s.pushedRoutes ++ ["/?destroyed=true"]
               intervalArmed := false }
    else { s with intervalArmed := true }

/-- One elapsed second: if an interval is armed, its callback updates
`timeRemaining` via `tickValue`, and the changed state re-runs the
countdown effect; with no interval armed nothing happens. -/
def doTick (s : TimerState) : TimerState :=
  if s.intervalArmed then
    runEffect { s with timeRemaining := s.timeRemaining.map tickValue }
  else s

/-- The timer state right after the server TTL `n` is first observed
(part_000 lines 54-56 set `timeRemaining`, and the countdown effect runs
on the fresh value). -/
def armAt (n : Int) : TimerState :=
  runEffect { timeRemaining := some n, pushedRoutes := [], intervalArmed := false }

/-- The realtime `chat.destroy` handler (part_000 lines 176-178) pushes
the teardown route immediately; the navigation unmounts the room view,
whose effect cleanup (part_000 line 76) clears any armed interval. -/
def onDestroy (s : TimerState) : TimerState :=
  { s with pushedRoutes := s.pushedRoutes ++ ["/?destroyed=true"]
           intervalArmed := false }

/-- Ids of the cached message list, empty when the cache holds no data. -/
def cacheIds (s : Option (List Message)) : List String :=
  (s.getD []).map Message.id

/-- Reachable states of the `["messages", roomId]` cache entry, starting
from no data. Transitions: an authoritative fetch lands a server list
(whose ids are unique, the server storing one record per id); `onMutate`
appends an optimistic message under a fresh client-generated id
(`crypto.randomUUID()`, part_000 line 338); the realtime `chat.message`
handler merges a pushed message; `onError` restores a snapshot that was
itself an earlier reachable state. -/
inductive ReachableCache : Option (List Message) → Prop
  | init : ReachableCache none
  | refetch (s : Option (List Message)) (l : List Message)
      (hl : (l.map Message.id).Nodup) (hs : ReachableCache s) :
      ReachableCache (some l)
  | optimistic (s : Option (List Message)) (m : Message)
      (hfresh : m.id ∉ cacheIds s) (hs : ReachableCache s) :
      ReachableCache (some (optMutate s m))
  | realtime (s : Option (List Message)) (m : Message)
      (hs : ReachableCache s) : ReachableCache (some (mergeRealtime s m))
  | rollback (s prev : Option (List Message)) (hs : ReachableCache s)
      (hprev : ReachableCache prev) : ReachableCache prev

/-- A fetch of the room's messages that has not yet landed, alongside the
cache it would overwrite: the model for the `cancelQueries` contract of
`onMutate`. -/
structure CacheSys where
  cache : Option (List Message)
  inflight : Option (List Message)
deriving DecidableEq, Repr

/-- The `cancelQueries` call opening `onMutate` (part_000 line 110):
whatever fetch of this room's messages is in flight is cancelled. -/
def cancelInflight (s : CacheSys) : CacheSys :=
  { s with inflight := none }

/-- The `onMutate` callback against a cache with a possible in-flight
fetch (part_000 lines 108-137): outgoing refetches are cancelled first,
and only then is the optimistic message appended. -/
def onMutateStep (s : CacheSys) (m : Message) : CacheSys :=
  let s1 := cancelInflight s
  { s1 with cache := some (optMutate s1.cache m) }

/-- Landing of a previously issued fetch: a fetch still in flight replaces
the cache wholesale with the server list it carried; a cancelled fetch
changes nothing. -/
def landInflight (s : CacheSys) : CacheSys :=
  match s.inflight with
  | some l => { cache := some l, inflight := none }
  | none => s

/-- State of the composer (`chat-input.tsx`): the controlled text input,
the image preview URL, the encoded image payload (base64 and MIME type),
and the list of `onSend` calls made so far (text with optional image). -/
structure ComposerState where
  input : String
  imagePreview : Option String
  imageData : Option (String × String)
  sentCalls : List (String × Option (String × String))
deriving DecidableEq, Repr

/-- The `removeImage` helper (chat-input.tsx lines 98-102): clears the
preview and the image payload. -/
def removeImage (s : ComposerState) : ComposerState :=
  { s with imagePreview := none, imageData := none }

/-- Falsiness of `input.trim()` in the guards of `chat-input.tsx` (lines
105 and 178): the trimmed text is empty exactly when every character of
the text is whitespace. -/
def isBlank (s : String) : Bool :=
  s.toList.all Char.isWhitespace

/-- The `handleSend` callback (chat-input.tsx lines 104-111), reached both
from the Enter key handler and from the send button: when the text is
blank (`!input.trim()`) and no image payload is attached it returns
without calling `onSend`; otherwise it calls `onSend` with the current
text and image and then clears the input and the image state. -/
def handleSend (s : ComposerState) : ComposerState :=
  if isBlank s.input && s.imageData.isNone then s
  else removeImage { s with
    input := ""
    sentCalls := s.sentCalls ++ [(s.input, s.imageData)] }

end EdgeChat

namespace EdgeChat

/-- C1: rollback on failure. Starting from any populated room state, a
failed `optimisticSend` restores the cache to the exact snapshot captured
before the optimistic append, whatever interleaved mutations (such as
realtime merges) ran while the send was in flight. In particular, from
`[m1]` a failed send of `m2` leaves exactly `[m1]`: neither `[]` nor
`[m1, m2]`. -/
theorem C1_rollback_restores_snapshot (prev : List Message) (m : Message)
    (interleave : Option (List Message) → Option (List Message)) :
    runSendMutation (some prev) m interleave true = some prev := by
  simp [runSendMutation, onErrorRollback]

/-- C2: the realtime `chat.message` merge is idempotent — merging the same
message twice into any cache state yields the same list as merging it
once. -/
theorem C2_merge_idempotent (s : Option (List Message)) (m : Message) :
    mergeRealtime (some (mergeRealtime s m)) m = mergeRealtime s m := by
  cases s with
  | none =>
    simp [mergeRealtime]
  | some msgs =>
    by_cases h : msgs.any (fun x => x.id == m.id)
    · simp [mergeRealtime, h]
    · simp only [mergeRealtime, h, if_false]
      have : (msgs ++ [m]).any (fun x => x.id == m.id) = true := by
        simp [List.any_append]
      simp [this]

/-- C3: behaviour of the realtime merge on a populated cache — if some
entry already carries the pushed message's id the merge is a no-op, and
otherwise the pushed message is appended at the tail. -/
theorem C3_merge_noop_or_append (msgs : List Message) (m : Message) :
    ((∃ x ∈ msgs, x.id = m.id) → mergeRealtime (some msgs) m = msgs) ∧
    ((∀ x ∈ msgs, x.id ≠ m.id) →
      mergeRealtime (some msgs) m = msgs ++ [m]) := by
  constructor
  · intro hex
    have h : msgs.any (fun x => x.id == m.id) = true := by
      rcases hex with ⟨x, hx, hid⟩
      exact List.any_eq_true.mpr ⟨x, hx, by simpa using hid⟩
    simp [mergeRealtime, h]
  · intro hall
    have h : msgs.any (fun x => x.id == m.id) = false := by
      rw [List.any_eq_false]
      intro x hx
      simpa using hall x hx
    simp [mergeRealtime, h]

/-- Witness for C3 at concrete inputs: merging a message whose id is
already present is a no-op, and merging a fresh id appends at the tail. -/
theorem C3_witness :
    (let mb : Message := ⟨"b", "u", "hi", 0, "r", none, none⟩
     mergeRealtime (some [mb]) ⟨"b", "v", "bye", 1, "r", none, none⟩ = [mb]) ∧
    (let mb : Message := ⟨"b", "u", "hi", 0, "r", none, none⟩
     let mc : Message := ⟨"c", "v", "bye", 1, "r", none, none⟩
     mergeRealtime (some [mb]) mc = [mb, mc]) := by
  constructor
  · exact (C3_merge_noop_or_append _ _).1
      ⟨⟨"b", "u", "hi", 0, "r", none, none⟩, by simp, rfl⟩
  · exact (C3_merge_noop_or_append _ _).2 (by intro x hx; simp at hx; simp [hx])

/-- C4: `onMutate` synchronously appends to the cached list, before the
network call resolves, the message synthesized from the client-generated
id, the current sender, `Date.now()`, and the draft's text and image
fields; from an empty room state, a send with id `"a"` yields exactly the
one-element list holding the given sender and text. -/
theorem C4_optimistic_append (d : Draft) (username : String) (now : Int)
    (roomId : String) (old : Option (List Message)) :
    optMutate old (synthesizeOptimistic d username now roomId) =
      (old.getD []) ++ [⟨d.id, username, d.text, now, roomId,
        d.imageBase64, d.imageType⟩] ∧
    optMutate (some []) (synthesizeOptimistic ⟨d.text, d.imageBase64,
        d.imageType, "a"⟩ username now roomId) =
      [⟨"a", username, d.text, now, roomId, d.imageBase64, d.imageType⟩] := by
  constructor
  · cases old <;> simp [optMutate, synthesizeOptimistic]
  · simp [optMutate, synthesizeOptimistic]

/-- While the countdown is still positive, each elapsed second decrements
`timeRemaining` by exactly one and keeps the interval armed with no
navigation fired. -/
theorem countdown_aux (n : Int) :
    ∀ k : Nat, k < n.toNat →
      doTick^[k] (armAt n) = ⟨some (n - k), [], true⟩ := by
  intro k
  induction k with
  | zero =>
    intro hk
    have hn : 1 ≤ n := by omega
    simp only [Function.iterate_zero, id_eq, armAt, runEffect]
    rw [if_neg (by omega), if_neg (by omega)]
    simp
  | succ k ih =>
    intro hk
    have hkn : k < n.toNat := Nat.lt_of_succ_lt hk
    have h2 : (1 : Int) < n - k := by omega
    have hv : tickValue (n - k) = n - (k + 1 : Nat) := by
      rw [tickValue, if_neg (by omega)]
      push_cast
      ring
    rw [Function.iterate_succ_apply', ih hkn]
    simp only [doTick, if_true, runEffect, Option.map_some', hv]
    rw [if_neg (by omega), if_neg (by omega)]

/-- C6: countdown monotonicity. Armed at any `n ≥ 0` with no destroy
signal, each one-second tick while the value is positive decrements it by
exactly one; after `n` ticks the value is 0 and the teardown navigation
has fired exactly once; any further tick changes nothing, so the value
never goes negative and no second teardown fires. -/
theorem C6_countdown_monotone (n : Int) (h : 0 ≤ n) :
    (∀ k : Nat, k < n.toNat →
      doTick^[k] (armAt n) = ⟨some (n - k), [], true⟩) ∧
    doTick^[n.toNat] (armAt n) = ⟨some 0, ["/?destroyed=true"], false⟩ ∧
    doTick (doTick^[n.toNat] (armAt n)) = doTick^[n.toNat] (armAt n) := by
  have hfinal : doTick^[n.toNat] (armAt n) =
      ⟨some 0, ["/?destroyed=true"], false⟩ := by
    cases hN : n.toNat with
    | zero =>
      have hn0 : n = 0 := by omega
      subst hn0
      simp [armAt, runEffect]
    | succ N =>
      have h1 : n - N = 1 := by omega
      rw [Function.iterate_succ_apply', countdown_aux n N (by omega), h1]
      simp [doTick, runEffect, tickValue]
  refine ⟨countdown_aux n, hfinal, ?_⟩
  rw [hfinal]
  rfl

/-- Witness for C6 at `n = 5`: five ticks after arming, the value is 0 and
exactly one teardown navigation has fired, and a sixth tick is a no-op. -/
theorem C6_witness :
    (0 : Int) ≤ 5 ∧
    doTick^[(5 : Int).toNat] (armAt 5) =
      ⟨some 0, ["/?destroyed=true"], false⟩ ∧
    doTick (doTick^[(5 : Int).toNat] (armAt 5)) =
      doTick^[(5 : Int).toNat] (armAt 5) :=
  ⟨by decide, (C6_countdown_monotone 5 (by decide)).2.1,
    (C6_countdown_monotone 5 (by decide)).2.2⟩

/-- C7: destroy short-circuit. From every timer state — including freshly
armed states before any tick — a realtime `chat.destroy` event pushes the
identical teardown route as expiry (`"/?destroyed=true"`), and afterwards
the countdown never ticks again. -/
theorem C7_destroy_short_circuit (s : TimerState) :
    (onDestroy s).pushedRoutes = s.pushedRoutes ++ ["/?destroyed=true"] ∧
    (onDestroy s).timeRemaining = s.timeRemaining ∧
    doTick (onDestroy s) = onDestroy s := by
  refine ⟨rfl, rfl, ?_⟩
  simp [doTick, onDestroy]

/-- C8: negative TTL values are already expired. Arming at `n < 0` leaves
the state inert: the value is never decremented and the interval is never
re-armed, no matter how many seconds elapse. -/
theorem C8_negative_ttl_inert (n : Int) (h : n < 0) :
    armAt n = ⟨some n, [], false⟩ ∧
    ∀ k : Nat, doTick^[k] (armAt n) = armAt n := by
  have harm : armAt n = ⟨some n, [], false⟩ := by
    simp only [armAt, runEffect]
    rw [if_pos h]
  refine ⟨harm, ?_⟩
  intro k
  induction k with
  | zero => rfl
  | succ k ih =>
    rw [Function.iterate_succ_apply', ih, harm]
    rfl

/-- Witness for C8 at `n = -3`: the armed state holds `-3` with nothing
armed, and four elapsed seconds change nothing. -/
theorem C8_witness :
    (-3 : Int) < 0 ∧
    armAt (-3) = ⟨some (-3), [], false⟩ ∧
    doTick^[4] (armAt (-3)) = armAt (-3) :=
  ⟨by decide, (C8_negative_ttl_inert (-3) (by decide)).1,
    (C8_negative_ttl_inert (-3) (by decide)).2 4⟩

/-- Appending a message whose id is absent preserves uniqueness of ids. -/
theorem nodup_ids_append (msgs : List Message) (m : Message)
    (h : (msgs.map Message.id).Nodup) (hm : m.id ∉ msgs.map Message.id) :
    ((msgs ++ [m]).map Message.id).Nodup := by
  rw [List.map_append]
  simp only [List.map_cons, List.map_nil]
  rw [List.nodup_append]
  refine ⟨h, List.nodup_singleton _, ?_⟩
  intro a ha hb
  simp only [List.mem_singleton] at hb
  subst hb
  exact hm ha

/-- C5: in every reachable state of the message cache, ids are unique —
no two entries of the cached list share an id, even transiently. The
optimistic append relies on the freshness of its client-generated id; the
realtime merge de-duplicates by itself. -/
theorem C5_unique_ids (s : Option (List Message)) (h : ReachableCache s) :
    (cacheIds s).Nodup := by
  induction h with
  | init => simp [cacheIds]
  | refetch s l hl hs ih => simpa [cacheIds] using hl
  | optimistic s m hfresh hs ih =>
    cases s with
    | none => simp [cacheIds, optMutate]
    | some msgs =>
      simp only [cacheIds, Option.getD_some, optMutate] at *
      exact nodup_ids_append msgs m ih hfresh
  | realtime s m hs ih =>
    cases s with
    | none => simp [cacheIds, mergeRealtime]
    | some msgs =>
      simp only [cacheIds, Option.getD_some] at ih ⊢
      by_cases hany : msgs.any (fun x => x.id == m.id) = true
      · rw [show mergeRealtime (some msgs) m = msgs from by
          simp [mergeRealtime, hany]]
        exact ih
      · have hfalse : msgs.any (fun x => x.id == m.id) = false := by
          simpa using hany
        rw [show mergeRealtime (some msgs) m = msgs ++ [m] from by
          simp [mergeRealtime, hfalse]]
        refine nodup_ids_append msgs m ih ?_
        intro hmem
        rcases List.mem_map.mp hmem with ⟨x, hx, hid⟩
        have hx2 := List.any_eq_false.mp hfalse x hx
        simp [hid] at hx2
  | rollback s prev hs hprev ih ih2 => exact ih2

/-- Witness for C5: the interleaving of the spec — an optimistic send of
id `"b"` into an empty cache, followed by the realtime push of the
server's copy of `"b"` before the send settles — reaches a state whose id
list is exactly `["b"]`, with no duplicate. -/
theorem C5_witness :
    cacheIds (some (mergeRealtime
      (some (optMutate none ⟨"b", "u", "hi", 0, "r", none, none⟩))
      ⟨"b", "u", "hi", 7, "r", none, none⟩)) = ["b"] ∧
    (cacheIds (some (mergeRealtime
      (some (optMutate none ⟨"b", "u", "hi", 0, "r", none, none⟩))
      ⟨"b", "u", "hi", 7, "r", none, none⟩))).Nodup :=
  ⟨by simp [cacheIds, optMutate, mergeRealtime],
    C5_unique_ids _ (ReachableCache.realtime _ _
      (ReachableCache.optimistic none _ (by simp [cacheIds])
        ReachableCache.init))⟩

/-- C9: stale reads cannot clobber the optimistic append. Because
`onMutate` cancels outgoing refetches before mutating the cache, a fetch
that was in flight before the optimistic append can no longer land: after
`onMutate` no fetch is in flight, landing is a no-op, and the optimistic
message sits in the cache. -/
theorem C9_cancel_inflight_before_append (s : CacheSys) (m : Message) :
    (onMutateStep s m).inflight = none ∧
    landInflight (onMutateStep s m) = onMutateStep s m ∧
    m ∈ ((onMutateStep s m).cache.getD []) := by
  refine ⟨rfl, rfl, ?_⟩
  cases hc : s.cache <;>
    simp [onMutateStep, cancelInflight, optMutate, hc]

/-- C10: composer send guard. With blank (empty or whitespace-only) text
and no attached image, `handleSend` makes no `onSend` call and leaves the
whole composer state unchanged; when a send does occur, `onSend` receives
the current text and image and the input text and image state are
cleared. -/
theorem C10_composer_guard (s : ComposerState) :
    (isBlank s.input = true → s.imageData = none → handleSend s = s) ∧
    ((isBlank s.input = false ∨ s.imageData ≠ none) →
      handleSend s =
        ⟨"", none, none, s.sentCalls ++ [(s.input, s.imageData)]⟩) := by
  constructor
  · intro h1 h2
    simp [handleSend, h1, h2]
  · intro h
    have hcond : (isBlank s.input && s.imageData.isNone) = false := by
      rcases h with h | h
      · simp [h]
      · cases hd : s.imageData with
        | none => exact absurd hd h
        | some v => simp [hd]
    simp only [handleSend, hcond, Bool.false_eq_true, if_false]
    rfl

/-- Witness for C10: sending with whitespace-only text and no image is a
no-op, while sending with text `"hi"` and an attached image records the
`onSend` call and clears the text and the image state. -/
theorem C10_witness :
    handleSend ⟨"   ", none, none, []⟩ = ⟨"   ", none, none, []⟩ ∧
    handleSend ⟨"hi", some "p", some ("img", "image/jpeg"), []⟩ =
      ⟨"", none, none, [("hi", some ("img", "image/jpeg"))]⟩ :=
  ⟨(C10_composer_guard _).1 (by decide) rfl,
    (C10_composer_guard _).2 (Or.inl (by decide))⟩

end EdgeChat
